import Mathlib

/-!
Verification of the streaming response decoder and provider adapters of a
Rust client library for two LLM text-generation APIs.  The Rust source is
embedded shallowly: strings are `List Char`, `serde_json` values and the
(de)serialization of the concrete Rust structs are modelled explicitly, and
the chunked streaming loops become explicit state-passing functions.
-/

/- ## Rust `str` primitives on `List Char` -/

/-- Unicode `White_Space` code points, as used by Rust's `char::is_whitespace`. -/
def rustIsWhitespace (c : Char) : Bool :=
  c = ' ' || c = '\t' || c = '\n' || c = '\r' ||
  c = '\x0b' || c = '\x0c' || c.toNat = 0x85 || c.toNat = 0xa0 ||
  c.toNat = 0x1680 || (0x2000 ≤ c.toNat && c.toNat ≤ 0x200a) ||
  c.toNat = 0x2028 || c.toNat = 0x2029 || c.toNat = 0x202f ||
  c.toNat = 0x205f || c.toNat = 0x3000

/-- Model of Rust `str::trim_start`. -/
def trimStart (s : List Char) : List Char := s.dropWhile rustIsWhitespace

/-- Model of Rust `str::trim_end`. -/
def trimEnd (s : List Char) : List Char :=
  (s.reverse.dropWhile rustIsWhitespace).reverse

/-- Model of Rust `str::trim`. -/
def rustTrim (s : List Char) : List Char := trimEnd (trimStart s)

/-- Decides whether `pat` is a (list) prefix of `s`. -/
def isPre : List Char → List Char → Bool
  | [], _ => true
  | _ :: _, [] => false
  | p :: ps, c :: cs => p = c && isPre ps cs

/-- Model of Rust `str::strip_prefix`: the remainder after `pat`, when `pat`
is a prefix. -/
def stripOnce : List Char → List Char → Option (List Char)
  | [], s => some s
  | _ :: _, [] => none
  | p :: ps, c :: cs => if p = c then stripOnce ps cs else none

/-- One bounded round of repeatedly removing the prefix `pat`; the fuel is an
upper bound on the number of removals. -/
def stripAllAux : Nat → List Char → List Char → List Char
  | 0, _, s => s
  | n + 1, pat, s =>
    match stripOnce pat s with
    | some r => if r.length < s.length then stripAllAux n pat r else s
    | none => s

/-- Model of Rust `str::trim_start_matches`: removes every successive
occurrence of the prefix `pat`. -/
def stripAll (pat s : List Char) : List Char := stripAllAux s.length pat s

/- ## JSON values (model of `serde_json::Value`)

Numbers keep their raw source text; none of the verified behaviours depends
on numeric normalisation. -/

inductive JVal where
  | null
  | bool (b : Bool)
  | num (raw : List Char)
  | str (s : List Char)
  | arr (items : List JVal)
  | obj (fields : List (List Char × JVal))

/-- Looks a key up in a parsed JSON object. -/
def jLookup (k : List Char) : List (List Char × JVal) → Option JVal
  | [] => none
  | (k', v) :: rest => if k' = k then some v else jLookup k rest

/- ## JSON parsing (model of `serde_json::from_str`'s lexical layer) -/

/-- JSON insignificant whitespace (`serde_json` accepts space, tab, LF, CR). -/
def jsonWs (c : Char) : Bool := c = ' ' || c = '\t' || c = '\n' || c = '\r'

def skipWs (s : List Char) : List Char := s.dropWhile jsonWs

/-- Value of a hexadecimal digit. -/
def hexVal (c : Char) : Option Nat :=
  if '0' ≤ c ∧ c ≤ '9' then some (c.toNat - '0'.toNat)
  else if 'a' ≤ c ∧ c ≤ 'f' then some (c.toNat - 'a'.toNat + 10)
  else if 'A' ≤ c ∧ c ≤ 'F' then some (c.toNat - 'A'.toNat + 10)
  else none

/-- Parses the body of a JSON string literal (the opening quote already
consumed), handling the escape sequences `serde_json` accepts. -/
def parseStrBody : Nat → List Char → List Char → Option (List Char × List Char)
  | 0, _, _ => none
  | n + 1, acc, s =>
    match s with
    | [] => none
    | '"' :: rest => some (acc.reverse, rest)
    | '\\' :: e :: rest =>
      match e with
      | '"' => parseStrBody n ('"' :: acc) rest
      | '\\' => parseStrBody n ('\\' :: acc) rest
      | '/' => parseStrBody n ('/' :: acc) rest
      | 'n' => parseStrBody n ('\n' :: acc) rest
      | 't' => parseStrBody n ('\t' :: acc) rest
      | 'r' => parseStrBody n ('\r' :: acc) rest
      | 'b' => parseStrBody n ('\x08' :: acc) rest
      | 'f' => parseStrBody n ('\x0c' :: acc) rest
      | 'u' =>
        match rest with
        | h1 :: h2 :: h3 :: h4 :: rest' =>
          match hexVal h1, hexVal h2, hexVal h3, hexVal h4 with
          | some a, some b, some c, some d =>
            let code := ((a * 16 + b) * 16 + c) * 16 + d
            if 0xd800 ≤ code ∧ code ≤ 0xdfff then none
            else if h : code.isValidChar then
              parseStrBody n (Char.ofNatAux code h :: acc) rest'
            else none
          | _, _, _, _ => none
        | _ => none
      | _ => none
    | c :: rest => if c.toNat < 0x20 then none else parseStrBody n (c :: acc) rest

/-- Parses a JSON number token, returning its raw text and the remainder. -/
def parseNumTok (s : List Char) : Option (List Char × List Char) :=
  let (sign, s1) := match s with
    | '-' :: t => (['-'], t)
    | _ => (([] : List Char), s)
  let (ds, r1) := s1.span Char.isDigit
  if ds = [] then none
  else if 1 < ds.length ∧ ds.head? = some '0' then none
  else
    let contExp : List Char → List Char → Option (List Char × List Char) :=
      fun acc r =>
        match r with
        | 'e' :: t | 'E' :: t =>
          let (es, t1) := match t with
            | '+' :: u => (['+'], u)
            | '-' :: u => (['-'], u)
            | _ => (([] : List Char), t)
          let (xs, t2) := t1.span Char.isDigit
          if xs = [] then none
          else some (acc ++ 'e' :: es ++ xs, t2)
        | _ => some (acc, r)
    match r1 with
    | '.' :: t =>
      let (fs, r2) := t.span Char.isDigit
      if fs = [] then none else contExp (sign ++ ds ++ '.' :: fs) r2
    | _ => contExp (sign ++ ds) r1

mutual

/-- Parses one JSON value (fuel-bounded recursive descent). -/
def parseVal : Nat → List Char → Option (JVal × List Char)
  | 0, _ => none
  | n + 1, s =>
    match skipWs s with
    | [] => none
    | c :: cs =>
      if c = 'n' then
        (stripOnce ('u' :: 'l' :: 'l' :: []) cs).map (fun r => (JVal.null, r))
      else if c = 't' then
        (stripOnce ('r' :: 'u' :: 'e' :: []) cs).map (fun r => (JVal.bool true, r))
      else if c = 'f' then
        (stripOnce ('a' :: 'l' :: 's' :: 'e' :: []) cs).map (fun r => (JVal.bool false, r))
      else if c = '"' then
        (parseStrBody (cs.length + 1) [] cs).map (fun (str, r) => (JVal.str str, r))
      else if c = '[' then
        match skipWs cs with
        | ']' :: r => some (JVal.arr [], r)
        | _ => (parseArrItems n cs).map (fun (xs, r) => (JVal.arr xs, r))
      else if c = '\x7b' then
        match skipWs cs with
        | '\x7d' :: r => some (JVal.obj [], r)
        | _ => (parseObjItems n cs).map (fun (kvs, r) => (JVal.obj kvs, r))
      else
        (parseNumTok (c :: cs)).map (fun (raw, r) => (JVal.num raw, r))

/-- Parses `value (, value)* ]`. -/
def parseArrItems : Nat → List Char → Option (List JVal × List Char)
  | 0, _ => none
  | n + 1, s =>
    match parseVal n s with
    | none => none
    | some (v, r) =>
      match skipWs r with
      | ',' :: r' =>
        (parseArrItems n r').map (fun (xs, r'') => (v :: xs, r''))
      | ']' :: r' => some ([v], r')
      | _ => none

/-- Parses `"key" : value (, "key" : value)* }`. -/
def parseObjItems : Nat → List Char → Option (List (List Char × JVal) × List Char)
  | 0, _ => none
  | n + 1, s =>
    match skipWs s with
    | '"' :: cs =>
      match parseStrBody (cs.length + 1) [] cs with
      | none => none
      | some (k, r) =>
        match skipWs r with
        | ':' :: r' =>
          match parseVal n r' with
          | none => none
          | some (v, r'') =>
            match skipWs r'' with
            | ',' :: r3 =>
              (parseObjItems n r3).map (fun (kvs, r4) => ((k, v) :: kvs, r4))
            | '\x7d' :: r3 => some ([(k, v)], r3)
            | _ => none
        | _ => none
    | _ => none

end

/-- Model of `serde_json::from_str`'s value layer: one JSON value with only
trailing whitespace. -/
def jsonFromStr (s : List Char) : Option JVal :=
  match parseVal (s.length + 1) s with
  | some (v, r) => if skipWs r = [] then some v else none
  | none => none

/- ## Serde field decoding helpers -/

def asStr : JVal → Option (List Char)
  | JVal.str s => some s
  | _ => none

def asObj : JVal → Option (List (List Char × JVal))
  | JVal.obj kvs => some kvs
  | _ => none

def asArr : JVal → Option (List JVal)
  | JVal.arr xs => some xs
  | _ => none

/-- Integer value of a raw JSON number token (fails on fraction/exponent,
as serde does when deserializing an integer type). -/
def numToInt (raw : List Char) : Option Int :=
  let (neg, ds) := match raw with
    | '-' :: t => (true, t)
    | _ => (false, raw)
  if ds ≠ [] ∧ ds.all Char.isDigit then
    let n : Nat := ds.foldl (fun acc c => acc * 10 + (c.toNat - '0'.toNat)) 0
    some (if neg then -(n : Int) else (n : Int))
  else none

/-- Deserializes a bounded integer (e.g. `u32`, `i32`, `usize`). -/
def asIntIn (lo hi : Int) (v : JVal) : Option Int :=
  match v with
  | JVal.num raw =>
    match numToInt raw with
    | some n => if lo ≤ n ∧ n ≤ hi then some n else none
    | none => none
  | _ => none

/-- Serde semantics of an `Option<T>` struct field: absent or `null` is
`None`; otherwise the value must decode. -/
def optField {A : Type} (kvs : List (List Char × JVal)) (k : List Char)
    (dec : JVal → Option A) : Option (Option A) :=
  match jLookup k kvs with
  | none => some none
  | some JVal.null => some none
  | some v => (dec v).map some

/-- Serde semantics of a required struct field. -/
def reqField {A : Type} (kvs : List (List Char × JVal)) (k : List Char)
    (dec : JVal → Option A) : Option A :=
  match jLookup k kvs with
  | none => none
  | some v => dec v

/- ## Anthropic stream payload types (src/types.rs) -/

structure AnthropicUsageM where
  input_tokens : Option Int
  output_tokens : Option Int
deriving DecidableEq

structure AnthropicContentBlockM where
  content_type : List Char
  text : Option (List Char)
deriving DecidableEq

structure AnthropicTextDeltaM where
  delta_type : Option (List Char)
  text : Option (List Char)
  stop_reason : Option (List Char)
  stop_sequence : Option (List Char)
  usage : Option AnthropicUsageM
deriving DecidableEq

structure AnthropicMessageM where
  id : Option (List Char)
  message_type : List Char
  role : Option (List Char)
  content : Option (List AnthropicContentBlockM)
  model : Option (List Char)
  stop_reason : Option (List Char)
  stop_sequence : Option (List Char)
  usage : Option AnthropicUsageM
deriving DecidableEq

structure AnthropicChatCompletionChunkM where
  event_type : List Char
  index : Option Int
  delta : Option AnthropicTextDeltaM
  message : Option AnthropicMessageM
deriving DecidableEq

structure AnthropicErrorDetailsM where
  details : Option JVal
  error_type : List Char
  message : List Char

structure AnthropicErrorMessageM where
  error_type : List Char
  error : AnthropicErrorDetailsM

def decUsage (v : JVal) : Option AnthropicUsageM := do
  let kvs ← asObj v
  let it ← optField kvs "input_tokens".toList (asIntIn 0 4294967295)
  let ot ← optField kvs "output_tokens".toList (asIntIn 0 4294967295)
  some ⟨it, ot⟩

def decContentBlock (v : JVal) : Option AnthropicContentBlockM := do
  let kvs ← asObj v
  let ct ← reqField kvs "type".toList asStr
  let tx ← optField kvs "text".toList asStr
  some ⟨ct, tx⟩

def decTextDelta (v : JVal) : Option AnthropicTextDeltaM := do
  let kvs ← asObj v
  let dt ← optField kvs "type".toList asStr
  let tx ← optField kvs "text".toList asStr
  let sr ← optField kvs "stop_reason".toList asStr
  let ss ← optField kvs "stop_sequence".toList asStr
  let us ← optField kvs "usage".toList decUsage
  some ⟨dt, tx, sr, ss, us⟩

def decMessage (v : JVal) : Option AnthropicMessageM := do
  let kvs ← asObj v
  let idv ← optField kvs "id".toList asStr
  let mt ← reqField kvs "type".toList asStr
  let rl ← optField kvs "role".toList asStr
  let ct ← optField kvs "content".toList
    (fun w => asArr w >>= fun xs => xs.mapM decContentBlock)
  let md ← optField kvs "model".toList asStr
  let sr ← optField kvs "stop_reason".toList asStr
  let ss ← optField kvs "stop_sequence".toList asStr
  let us ← optField kvs "usage".toList decUsage
  some ⟨idv, mt, rl, ct, md, sr, ss, us⟩

/-- Model of `serde_json::from_str::<AnthropicChatCompletionChunk>`. -/
def parseAnthropicChunk (s : List Char) : Option AnthropicChatCompletionChunkM := do
  let j ← jsonFromStr s
  let kvs ← asObj j
  let et ← reqField kvs "type".toList asStr
  let idx ← optField kvs "index".toList (asIntIn 0 18446744073709551615)
  let dl ← optField kvs "delta".toList decTextDelta
  let ms ← optField kvs "message".toList decMessage
  some ⟨et, idx, dl, ms⟩

/-- Model of `serde_json::from_str::<AnthropicErrorMessage>`. -/
def parseAnthropicError (s : List Char) : Option AnthropicErrorMessageM := do
  let j ← jsonFromStr s
  let kvs ← asObj j
  let et ← reqField kvs "type".toList asStr
  let er ← reqField kvs "error".toList (fun w => do
    let ekvs ← asObj w
    let dt ← optField ekvs "details".toList some
    let ety ← reqField ekvs "type".toList asStr
    let msg ← reqField ekvs "message".toList asStr
    some (⟨dt, ety, msg⟩ : AnthropicErrorDetailsM))
  some ⟨et, er⟩

/- ## AnthropicClient::process_stream_chunk (src/anthropic_client.rs:256-308) -/

/-- The seven event-name tokens stripped in order by `process_stream_chunk`. -/
def eventPats : List (List Char) :=
  ["event: message_start".toList,
   "event: content_block_start".toList,
   "event: ping".toList,
   "event: content_block_delta".toList,
   "event: content_block_stop".toList,
   "event: message_delta".toList,
   "event: message_stop".toList]

def stripEvents (s : List Char) : List Char :=
  eventPats.foldl (fun acc p => stripAll p acc) s

/-- The cleaned payload tried against the content-delta parse: event-name
tokens stripped, then `trim_start().strip_prefix("data: ")` with fallback to
the untrimmed string (`unwrap_or(&processed_chunk)`). -/
def cleanedPayload (chunk : List Char) : List Char :=
  (stripOnce "data: ".toList (trimStart (stripEvents chunk))).getD (stripEvents chunk)

/-- The second-stage cleaning applied before the error-envelope parse:
`event: error` stripped, then the same `data: ` strip with fallback. -/
def cleanedErrorPayload (s : List Char) : List Char :=
  (stripOnce "data: ".toList (trimStart (stripAll "event: error".toList s))).getD
    (stripAll "event: error".toList s)

/-- Model of `AnthropicClient::process_stream_chunk`: strips the event-name
tokens and the `data: ` payload marker, then tries the content-delta parse,
then the error-envelope parse; an error envelope aborts the stream, anything
unparseable is swallowed as an empty fragment. -/
def processStreamChunk (chunk : List Char) : Except (List Char) (List Char) :=
  let cleaned := cleanedPayload chunk
  match parseAnthropicChunk cleaned with
  | some d =>
    match d.delta with
    | some delta =>
      match delta.text with
      | some content => Except.ok content
      | none => Except.ok []
    | none => Except.ok []
  | none =>
    match parseAnthropicError (cleanedErrorPayload cleaned) with
    | some em => Except.error (em.error.error_type ++ ':' :: ' ' :: em.error.message)
    | none => Except.ok []

/- ## Event-stream frame buffer (buffer.find("\n\n") / drain in stream_message) -/

/-- Model of `buffer.find("\n\n")` plus the two drains in the stream loop:
the first complete frame (text before the first double newline) and the
remainder of the buffer after the delimiter. -/
def findDelim : List Char → Option (List Char × List Char)
  | [] => none
  | a :: rest =>
    if a = '\n' ∧ rest.head? = some '\n' then some ([], rest.tail)
    else
      match findDelim rest with
      | some (f, r) => some (a :: f, r)
      | none => none

/-- The terminal sentinel frame content. -/
def sentinel : List Char := "data: [DONE]".toList

/-- Result of draining all currently complete frames from the buffer:
fragments handed to the sink, the retained buffer, and an error that aborts
the whole streaming call. -/
structure DrainOut where
  emitted : List (List Char)
  buffer : List Char
  error : Option (List Char)
deriving DecidableEq

/-- Fragments the driver actually forwards for one processed frame
(`if !processed_chunk.is_empty()`). -/
def emitOf (s : List Char) : List (List Char) := if s = [] then [] else [s]

/-- Fuel-bounded inner drain loop of `AnthropicClient::stream_message`
(src/anthropic_client.rs:182-202): repeatedly removes the first complete
frame; in verbose mode every frame goes to the sink verbatim; otherwise the
sentinel frame breaks out of the drain, an error envelope aborts the call,
and any other frame contributes its (possibly empty) processed fragment. -/
def drainAux (verbose : Bool) : Nat → List Char → DrainOut
  | 0, buf => ⟨[], buf, none⟩
  | n + 1, buf =>
    match findDelim buf with
    | none => ⟨[], buf, none⟩
    | some (f, r) =>
      if verbose then
        let d := drainAux verbose n r
        ⟨f :: d.emitted, d.buffer, d.error⟩
      else if f = sentinel then ⟨[], r, none⟩
      else
        match processStreamChunk f with
        | Except.error e => ⟨[], r, some e⟩
        | Except.ok s =>
          let d := drainAux verbose n r
          ⟨emitOf s ++ d.emitted, d.buffer, d.error⟩

/-- The drain loop, with fuel sufficient for any buffer. -/
def drainLoop (verbose : Bool) (buf : List Char) : DrainOut :=
  drainAux verbose buf.length buf

/-- Model of the outer transport loop of `AnthropicClient::stream_message`:
each chunk is appended to the buffer and the buffer drained; a processing
error aborts the call immediately; when the transport closes the call
returns success, leaving any residual buffer undrained. -/
def runChunks (verbose : Bool) : List Char → List (List Char) →
    List (List Char) × Option (List Char)
  | _, [] => ([], none)
  | buf, c :: cs =>
    let d := drainLoop verbose (buf ++ c)
    match d.error with
    | some e => (d.emitted, some e)
    | none =>
      let (rest, err) := runChunks verbose d.buffer cs
      (d.emitted ++ rest, err)

/-- The streaming decoder applied to a whole transport chunk sequence,
starting from an empty buffer. -/
def streamAnthropic (verbose : Bool) (chunks : List (List Char)) :
    List (List Char) × Option (List Char) :=
  runChunks verbose [] chunks

/-- Fuel-bounded frame decomposition of a byte sequence. -/
def framesAux : Nat → List Char → List (List Char)
  | 0, _ => []
  | n + 1, b =>
    match findDelim b with
    | none => []
    | some (f, r) => f :: framesAux n r

/-- All complete frames of a byte sequence, in order. -/
def framesOf (b : List Char) : List (List Char) := framesAux b.length b

/-- Concatenation of a chunk sequence. -/
def concatL (cs : List (List Char)) : List Char := cs.foldr (· ++ ·) []

/- ## JSON serialization (model of `serde_json::to_string`) -/

def hexDigit (n : Nat) : Char :=
  if n < 10 then Char.ofNat ('0'.toNat + n) else Char.ofNat ('a'.toNat + n - 10)

/-- Escaping of one character inside a JSON string, as `serde_json` emits it. -/
def escC (c : Char) : List Char :=
  if c = '"' then ['\\', '"']
  else if c = '\\' then ['\\', '\\']
  else if c = '\x08' then ['\\', 'b']
  else if c = '\t' then ['\\', 't']
  else if c = '\n' then ['\\', 'n']
  else if c = '\x0c' then ['\\', 'f']
  else if c = '\r' then ['\\', 'r']
  else if c.toNat < 0x20 then
    ['\\', 'u', '0', '0', hexDigit (c.toNat / 16), hexDigit (c.toNat % 16)]
  else [c]

def escapeStr (s : List Char) : List Char := (s.map escC).flatten

/-- Byte-wise key order of Rust's `BTreeMap<String, Value>`
(`serde_json::Map` with default features). -/
def lexLt : List Char → List Char → Bool
  | [], [] => false
  | [], _ :: _ => true
  | _ :: _, [] => false
  | a :: as, b :: bs =>
    if a.toNat < b.toNat then true
    else if b.toNat < a.toNat then false
    else lexLt as bs

def insertPairSer (p : List Char × List Char) :
    List (List Char × List Char) → List (List Char × List Char)
  | [] => [p]
  | q :: rest => if lexLt p.1 q.1 then p :: q :: rest else q :: insertPairSer p rest

/-- Rendered object fields in the order `serde_json::Value` iterates them
(`BTreeMap`: sorted by key). -/
def sortPairsSer (kvs : List (List Char × List Char)) :
    List (List Char × List Char) :=
  kvs.foldr insertPairSer []

/-- Compact serializer matching `serde_json::to_string` on `Value`s. -/
def serJVal : JVal → List Char
  | JVal.null => "null".toList
  | JVal.bool true => "true".toList
  | JVal.bool false => "false".toList
  | JVal.num raw => raw
  | JVal.str s => '"' :: escapeStr s ++ ['"']
  | JVal.arr xs =>
    '[' :: List.intercalate [','] (xs.attach.map (fun x => serJVal x.1)) ++ [']']
  | JVal.obj kvs =>
    let rendered := kvs.attach.map (fun p => (p.1.1, serJVal p.1.2))
    '\x7b' ::
      List.intercalate [',']
        ((sortPairsSer rendered).map
          (fun q => '"' :: escapeStr q.1 ++ '"' :: ':' :: q.2)) ++
      ['\x7d']
termination_by v => sizeOf v
decreasing_by
  · have := List.sizeOf_lt_of_mem x.2
    simp only [JVal.arr.sizeOf_spec]
    omega
  · have h1 := List.sizeOf_lt_of_mem p.2
    have h2 : sizeOf p.1.2 < sizeOf p.1 := by
      obtain ⟨a, b⟩ := p.1
      simp only [Prod.mk.sizeOf_spec]
      omega
    simp only [JVal.obj.sizeOf_spec]
    omega

/-- Model of `serde_json::to_string(&GeminiFunctionCall)`: struct fields in
declaration order (`name`, `args`). -/
def serializeFunctionCall (name : List Char) (args : JVal) : List Char :=
  '\x7b' :: "\"name\":\"".toList ++ escapeStr name ++ "\",\"args\":".toList ++
    serJVal args ++ ['\x7d']

/- ## Gemini response types (src/types.rs) and their deserialization -/

inductive GeminiPartM where
  | text (t : List Char)
  | functionCall (name : List Char) (args : JVal)
  | functionResponse (name : List Char) (response : JVal)

structure GeminiContentM where
  parts : List GeminiPartM
  role : Option (List Char)

structure GeminiSafetyRatingM where
  category : List Char
  probability : List Char

structure GeminiUsageM where
  prompt_token_count : Int
  candidates_token_count : Int
  total_token_count : Int

structure GeminiCandidateM where
  content : GeminiContentM
  finish_reason : Option (List Char)
  safety_ratings : Option (List GeminiSafetyRatingM)

structure GeminiResponseM where
  candidates : List GeminiCandidateM
  usage_metadata : Option GeminiUsageM

/-- Untagged deserialization of `GeminiPart`: the variants are tried in
declaration order (`Text`, `FunctionCall`, `FunctionResponse`). -/
def decPart (v : JVal) : Option GeminiPartM :=
  match (do
    let kvs ← asObj v
    let t ← reqField kvs "text".toList asStr
    some (GeminiPartM.text t)) with
  | some p => some p
  | none =>
    match (do
      let kvs ← asObj v
      let fc ← reqField kvs "function_call".toList (fun w => do
        let fkvs ← asObj w
        let nm ← reqField fkvs "name".toList asStr
        let ag ← reqField fkvs "args".toList some
        some (nm, ag))
      some (GeminiPartM.functionCall fc.1 fc.2)) with
    | some p => some p
    | none => do
      let kvs ← asObj v
      let fr ← reqField kvs "function_response".toList (fun w => do
        let fkvs ← asObj w
        let nm ← reqField fkvs "name".toList asStr
        let rp ← reqField fkvs "response".toList some
        some (nm, rp))
      some (GeminiPartM.functionResponse fr.1 fr.2)

def decContent (v : JVal) : Option GeminiContentM := do
  let kvs ← asObj v
  let ps ← reqField kvs "parts".toList (fun w => asArr w >>= fun xs => xs.mapM decPart)
  let rl ← optField kvs "role".toList asStr
  some ⟨ps, rl⟩

def decSafetyRating (v : JVal) : Option GeminiSafetyRatingM := do
  let kvs ← asObj v
  let c ← reqField kvs "category".toList asStr
  let p ← reqField kvs "probability".toList asStr
  some ⟨c, p⟩

def decGeminiUsage (v : JVal) : Option GeminiUsageM := do
  let kvs ← asObj v
  let a ← reqField kvs "prompt_token_count".toList (asIntIn (-2147483648) 2147483647)
  let b ← reqField kvs "candidates_token_count".toList (asIntIn (-2147483648) 2147483647)
  let c ← reqField kvs "total_token_count".toList (asIntIn (-2147483648) 2147483647)
  some ⟨a, b, c⟩

def decCandidate (v : JVal) : Option GeminiCandidateM := do
  let kvs ← asObj v
  let ct ← reqField kvs "content".toList decContent
  let fr ← optField kvs "finish_reason".toList asStr
  let sr ← optField kvs "safety_ratings".toList
    (fun w => asArr w >>= fun xs => xs.mapM decSafetyRating)
  some ⟨ct, fr, sr⟩

/-- Model of `serde_json::from_str::<GeminiResponse>`. -/
def parseGeminiResponse (s : List Char) : Option GeminiResponseM := do
  let j ← jsonFromStr s
  let kvs ← asObj j
  let cs ← reqField kvs "candidates".toList
    (fun w => asArr w >>= fun xs => xs.mapM decCandidate)
  let um ← optField kvs "usage_metadata".toList decGeminiUsage
  some ⟨cs, um⟩

/- ## GeminiClient::stream_message (src/gemini_client.rs:146-172) -/

/-- What the stream loop forwards to the sink for one decoded part: text
verbatim, function calls serialized, function responses nothing. -/
def geminiPartFrag : GeminiPartM → Option (List Char)
  | GeminiPartM.text t => some t
  | GeminiPartM.functionCall nm ag => some (serializeFunctionCall nm ag)
  | GeminiPartM.functionResponse _ _ => none

/-- All fragments one decoded response contributes, in order. -/
def geminiFragments (resp : GeminiResponseM) : List (List Char) :=
  (resp.candidates.map (fun c => c.content.parts.filterMap geminiPartFrag)).flatten

/-- Model of one iteration of the Gemini stream loop: a whitespace-only
chunk is skipped; otherwise the whole chunk must parse as a
`GeminiResponse`, and a parse failure aborts the call (the `anyhow` context
of line 157). -/
def geminiStep (chunk : List Char) : Except (List Char) (List (List Char)) :=
  if rustTrim chunk = [] then Except.ok []
  else
    match parseGeminiResponse chunk with
    | none => Except.error ("Failed to parse chunk as GeminiResponse".toList)
    | some resp => Except.ok (geminiFragments resp)

/-- Model of `GeminiClient::stream_message`'s transport loop. -/
def geminiRun : List (List Char) → List (List Char) × Option (List Char)
  | [] => ([], none)
  | c :: cs =>
    match geminiStep c with
    | Except.error e => ([], some e)
    | Except.ok fs =>
      let (rest, err) := geminiRun cs
      (fs ++ rest, err)

/- ## Buffered send_message text extraction -/

inductive ContentItemM where
  | text (t : List Char)
  | toolUse (id name : List Char) (input : JVal)

structure UsageM where
  input_tokens : Int
  output_tokens : Int

structure AnthropicResponseFullM where
  id : List Char
  model : List Char
  stop_reason : List Char
  role : List Char
  content : List ContentItemM
  usage : UsageM

/-- Model of the 2xx arm of `AnthropicClient::send_message`
(src/anthropic_client.rs:139-146): only a leading text item yields a result. -/
def anthropicHandleOk (resp : AnthropicResponseFullM) : Except (List Char) (List Char) :=
  match resp.content.head? with
  | some (ContentItemM.text t) => Except.ok t
  | _ => Except.error ("No text content in response".toList)

/-- The first `Text` part of a part list, skipping non-text parts. -/
def firstTextPart : List GeminiPartM → Option (List Char)
  | [] => none
  | GeminiPartM.text t :: _ => some t
  | _ :: rest => firstTextPart rest

/-- Model of `GeminiClient::extract_text_from_candidate`. -/
def extractTextFromCandidate (cand : GeminiCandidateM) : Option (List Char) :=
  firstTextPart cand.content.parts

/-- Model of the 2xx arm of `GeminiClient::send_message`
(src/gemini_client.rs:109-119). -/
def geminiHandleOk (resp : GeminiResponseM) : Except (List Char) (List Char) :=
  match resp.candidates.head? with
  | none => Except.error ("No candidates in response".toList)
  | some cand =>
    match extractTextFromCandidate cand with
    | some t => Except.ok t
    | none => Except.error ("No text content in response".toList)

/- ## Non-2xx handling (src/anthropic_client.rs:147-151, src/gemini_client.rs:121-131) -/

def intToRaw (n : Int) : List Char :=
  if n < 0 then '-' :: Nat.toDigits 10 (-n).toNat else Nat.toDigits 10 n.toNat

structure GeminiErrorM where
  code : Int
  message : List Char
  status : List Char

/-- Model of `serde_json::from_str::<GeminiError>`. -/
def parseGeminiError (s : List Char) : Option GeminiErrorM := do
  let j ← jsonFromStr s
  let kvs ← asObj j
  reqField kvs "error".toList (fun w => do
    let ekvs ← asObj w
    let cd ← reqField ekvs "code".toList (asIntIn (-2147483648) 2147483647)
    let ms ← reqField ekvs "message".toList asStr
    let st ← reqField ekvs "status".toList asStr
    some (⟨cd, ms, st⟩ : GeminiErrorM))

/-- Model of the non-2xx arm of `AnthropicClient::send_message`: the raw
body is interpolated into a generic message; no envelope parse is attempted. -/
def anthropicSendErrMsg (statusDisplay body : List Char) : List Char :=
  "Request failed (".toList ++ statusDisplay ++ "): ".toList ++ body

/-- Model of the non-2xx arm of the Gemini send/stream methods: the body
must parse as a `GeminiError` envelope; a parse failure surfaces the
`anyhow` context message instead of a status/body error. -/
def geminiSendErrMsg (body : List Char) : List Char :=
  match parseGeminiError body with
  | some e => "API Error (".toList ++ intToRaw e.code ++ "): ".toList ++ e.message
  | none => "Failed to parse error response".toList

/- ## Request building (AnthropicClient::build_request, GeminiClient::build_request) -/

/-- Model of `LLMConfig` (src/traits.rs).  Floating-point sampling values are
carried as integers; every verified property depends only on which options
are set. -/
structure LLMConfigM where
  api_key : List Char
  model : List Char
  temperature : Option Int
  max_tokens : Option Int
  streaming : Bool
  system_prompt : Option (List Char)
  tools : Option JVal
  stop_sequences : Option (List (List Char))
  top_p : Option Int
  top_k : Option Int

def optEntry (k : List Char) : Option JVal → List (List Char × JVal)
  | none => []
  | some v => [(k, v)]

/-- Model of the body map built by `AnthropicClient::build_request`
(src/anthropic_client.rs:50-108): required fields plus one entry per set
option, in insertion order. -/
def anthropicBodyFields (cfg : LLMConfigM) (content : List Char)
    (metadata : Option JVal) : List (List Char × JVal) :=
  [("model".toList, JVal.str cfg.model),
   ("messages".toList, JVal.arr [JVal.obj
     [("role".toList, JVal.str "user".toList),
      ("content".toList, JVal.str content)]])] ++
  optEntry "max_tokens".toList (cfg.max_tokens.map (fun v => JVal.num (intToRaw v))) ++
  optEntry "temperature".toList (cfg.temperature.map (fun v => JVal.num (intToRaw v))) ++
  optEntry "system".toList (cfg.system_prompt.map (fun s => JVal.arr [JVal.obj
    [("type".toList, JVal.str "text".toList),
     ("text".toList, JVal.str s),
     ("cache_control".toList, JVal.obj [("type".toList, JVal.str "ephemeral".toList)])]])) ++
  optEntry "tools".toList cfg.tools ++
  optEntry "stop_sequences".toList
    (cfg.stop_sequences.map (fun l => JVal.arr (l.map JVal.str))) ++
  optEntry "top_p".toList (cfg.top_p.map (fun v => JVal.num (intToRaw v))) ++
  optEntry "top_k".toList (cfg.top_k.map (fun v => JVal.num (intToRaw v))) ++
  optEntry "metadata".toList metadata

def anthropicBodyKeys (cfg : LLMConfigM) (content : List Char)
    (metadata : Option JVal) : List (List Char) :=
  (anthropicBodyFields cfg content metadata).map Prod.fst

def optNumJ : Option Int → JVal
  | none => JVal.null
  | some v => JVal.num (intToRaw v)

/-- Serialized form of the `GeminiGenerationConfig` built by
`GeminiClient::build_request` (src/types.rs:124-131): the struct derives
`Serialize` with no `skip_serializing_if`, so unset options serialize as
explicit nulls, in field-declaration order. -/
def geminiGenConfigFields (cfg : LLMConfigM) : List (List Char × JVal) :=
  [("temperature".toList, optNumJ cfg.temperature),
   ("top_p".toList, optNumJ cfg.top_p),
   ("top_k".toList, optNumJ cfg.top_k),
   ("max_output_tokens".toList, optNumJ cfg.max_tokens),
   ("stop_sequences".toList,
     match cfg.stop_sequences with
     | none => JVal.null
     | some l => JVal.arr (l.map JVal.str))]

/-- Serialized form of the `GeminiRequest` body (src/types.rs:98-104):
`tools` is a plain `Vec`, always present; `safety_settings` serializes as
null when unset; `generation_config` is always `Some` in `build_request`. -/
def geminiRequestFields (cfg : LLMConfigM) (content : List Char)
    (toolsJson : List JVal) (safety : Option JVal) : List (List Char × JVal) :=
  [("contents".toList, JVal.arr [JVal.obj
     [("parts".toList, JVal.arr [JVal.obj [("text".toList, JVal.str content)]]),
      ("role".toList, JVal.str "user".toList)]]),
   ("tools".toList, JVal.arr toolsJson),
   ("safety_settings".toList, safety.getD JVal.null),
   ("generation_config".toList, JVal.obj (geminiGenConfigFields cfg))]

/- ## Concrete wire payloads used in the verification -/

/-- The complete event-stream payload of the spec's single-fragment test. -/
def hiPayload : List Char :=
  "event: content_block_delta\ndata: \x7b\"type\":\"content_block_delta\",\"delta\":\x7b\"text\":\"Hi\"\x7d\x7d\n\n".toList

/-- The terminal sentinel frame followed by its frame delimiter. -/
def doneChunk : List Char := "data: [DONE]\n\n".toList

/-- A well-formed provider error envelope frame. -/
def errFrameChunk : List Char :=
  "event: error\ndata: \x7b\"type\":\"error\",\"error\":\x7b\"type\":\"overloaded_error\",\"message\":\"x\"\x7d\x7d\n\n".toList

/-- A ping control frame (no delimiter). -/
def pingFrame : List Char := "event: ping\ndata: \x7b\x7d".toList

/-- First half of a Gemini response object split mid-key, exactly the spec's
example split. -/
def gSplitA : List Char := "\x7b\"candidates\":[\x7b\"content".toList

/-- Second half of the split Gemini response object. -/
def gSplitB : List Char := "\":\x7b\"parts\":[\x7b\"text\":\"ok\"\x7d]\x7d\x7d]\x7d".toList

/-- A complete Gemini response chunk with one text part. -/
def gHiChunk : List Char :=
  "\x7b\"candidates\":[\x7b\"content\":\x7b\"parts\":[\x7b\"text\":\"Hi\"\x7d]\x7d\x7d]\x7d".toList

/-- A complete Gemini response chunk whose only part is a function response. -/
def gFnRespChunk : List Char :=
  "\x7b\"candidates\":[\x7b\"content\":\x7b\"parts\":[\x7b\"function_response\":\x7b\"name\":\"f\",\"response\":\x7b\x7d\x7d\x7d]\x7d\x7d]\x7d".toList

/-- A complete Gemini response chunk whose only part is a function call. -/
def gFnCallChunk : List Char :=
  "\x7b\"candidates\":[\x7b\"content\":\x7b\"parts\":[\x7b\"function_call\":\x7b\"name\":\"f\",\"args\":\x7b\"a\":1\x7d\x7d\x7d]\x7d\x7d]\x7d".toList

/-- A well-formed Gemini error envelope body. -/
def gErrBody : List Char :=
  "\x7b\"error\":\x7b\"code\":400,\"message\":\"bad\",\"status\":\"INVALID_ARGUMENT\"\x7d\x7d".toList

/-- A well-formed Anthropic error envelope body (no event framing). -/
def anthEnvBody : List Char :=
  "\x7b\"type\":\"error\",\"error\":\x7b\"type\":\"overloaded_error\",\"message\":\"x\"\x7d\x7d".toList

/-- A configuration with every optional request option unset. -/
def cfgUnset : LLMConfigM :=
  ⟨"k".toList, "m".toList, none, none, false, none, none, none, none, none⟩

/-- Decoded Gemini response corresponding to `gFnCallChunk`. -/
def gFnCallResp : GeminiResponseM :=
  ⟨[⟨⟨[GeminiPartM.functionCall "f".toList (JVal.obj [("a".toList, JVal.num ['1'])])],
      none⟩, none, none⟩], none⟩

/-- A buffered Anthropic response whose first content item is text. -/
def respTextFirst : AnthropicResponseFullM :=
  ⟨"i".toList, "m".toList, "end_turn".toList, "assistant".toList,
   [ContentItemM.text "hello".toList, ContentItemM.toolUse "t".toList "f".toList JVal.null],
   ⟨1, 2⟩⟩

/-- A buffered Anthropic response whose first content item is a tool use,
with a text item after it. -/
def respToolFirst : AnthropicResponseFullM :=
  ⟨"i".toList, "m".toList, "tool_use".toList, "assistant".toList,
   [ContentItemM.toolUse "t".toList "f".toList JVal.null, ContentItemM.text "later".toList],
   ⟨1, 2⟩⟩

/-- A Gemini response whose first candidate has a function call before its
first text part. -/
def respGeminiMixed : GeminiResponseM :=
  ⟨[⟨⟨[GeminiPartM.functionCall "f".toList JVal.null, GeminiPartM.text "g".toList],
      none⟩, none, none⟩], none⟩

/- ## Frame-buffer lemmas -/

/-- A successful delimiter search splits the buffer length as
frame + delimiter + remainder. -/
theorem findDelim_some_length :
    ∀ (b f r : List Char), findDelim b = some (f, r) →
      b.length = f.length + r.length + 2 := by
  intro b
  induction b with
  | nil => intro f r h; simp [findDelim] at h
  | cons a rest ih =>
    intro f r h
    simp only [findDelim] at h
    split at h
    · rename_i hc
      obtain ⟨h1, h2⟩ := hc
      simp only [Option.some.injEq, Prod.mk.injEq] at h
      obtain ⟨hf, hr⟩ := h
      cases rest with
      | nil => simp at h2
      | cons x t =>
        subst hf
        simp only [List.tail_cons] at hr
        subst hr
        simp only [List.length_cons, List.length_nil]
        omega
    · cases hfd : findDelim rest with
      | none => rw [hfd] at h; simp at h
      | some p =>
        obtain ⟨f', r'⟩ := p
        rw [hfd] at h
        simp only [Option.some.injEq, Prod.mk.injEq] at h
        obtain ⟨hf, hr⟩ := h
        subst hf
        subst hr
        have hlen := ih f' r' hfd
        simp only [List.length_cons]
        omega

/-- The first complete frame of a buffer is unchanged by appending more
bytes; only the remainder grows. -/
theorem findDelim_append :
    ∀ (b c f r : List Char), findDelim b = some (f, r) →
      findDelim (b ++ c) = some (f, r ++ c) := by
  intro b
  induction b with
  | nil => intro c f r h; simp [findDelim] at h
  | cons a rest ih =>
    intro c f r h
    simp only [findDelim] at h
    rw [List.cons_append]
    simp only [findDelim]
    split at h
    · rename_i hc
      obtain ⟨h1, h2⟩ := hc
      simp only [Option.some.injEq, Prod.mk.injEq] at h
      obtain ⟨hf, hr⟩ := h
      cases rest with
      | nil => simp at h2
      | cons x t =>
        obtain rfl : x = '\n' := by simpa using h2
        subst hf
        simp only [List.tail_cons] at hr
        subst hr
        rw [if_pos ⟨h1, by simp⟩]
        simp
    · rename_i hc
      cases hfd : findDelim rest with
      | none => rw [hfd] at h; simp at h
      | some p =>
        obtain ⟨f', r'⟩ := p
        rw [hfd] at h
        simp only [Option.some.injEq, Prod.mk.injEq] at h
        obtain ⟨hf, hr⟩ := h
        subst hf
        subst hr
        have hcond : ¬(a = '\n' ∧ (rest ++ c).head? = some '\n') := by
          intro ⟨e1, e2⟩
          apply hc
          refine ⟨e1, ?_⟩
          cases rest with
          | nil => simp [findDelim] at hfd
          | cons x t => simpa using e2
        rw [if_neg hcond, ih c f' r' hfd]

/-- A newline-free prefix followed by the delimiter is recognised as one
frame with everything after the delimiter retained. -/
theorem findDelim_flat :
    ∀ (s x : List Char), '\n' ∉ s →
      findDelim (s ++ '\n' :: '\n' :: x) = some (s, x) := by
  intro s
  induction s with
  | nil =>
    intro x _
    simp [findDelim]
  | cons a t ih =>
    intro x h
    rw [List.cons_append]
    simp only [findDelim]
    have ha : a ≠ '\n' := fun he => h (he ▸ List.mem_cons_self a t)
    rw [if_neg (fun hc => ha hc.1)]
    rw [ih x (fun hm => h (List.mem_cons_of_mem a hm))]

set_option maxHeartbeats 1000000 in
/-- The drain loop does not depend on its fuel, as long as the fuel bounds
the buffer length. -/
theorem drainAux_fuel (v : Bool) :
    ∀ (n m : Nat) (b : List Char), b.length ≤ n → b.length ≤ m →
      drainAux v n b = drainAux v m b := by
  intro n
  induction n with
  | zero =>
    intro m b hn _
    obtain rfl : b = [] := List.length_eq_zero.mp (Nat.le_zero.mp hn)
    cases m with
    | zero => rfl
    | succ m' => rfl
  | succ n' ih =>
    intro m b hn hm
    cases m with
    | zero =>
      obtain rfl : b = [] := List.length_eq_zero.mp (Nat.le_zero.mp hm)
      rfl
    | succ m' =>
      cases hfd : findDelim b with
      | none => simp only [drainAux, hfd]
      | some p =>
        obtain ⟨f, r⟩ := p
        have hlen := findDelim_some_length b f r hfd
        simp only [drainAux, hfd]
        rw [ih m' r (by omega) (by omega)]

set_option maxHeartbeats 1000000 in
/-- The frame decomposition does not depend on its fuel either. -/
theorem framesAux_fuel :
    ∀ (n m : Nat) (b : List Char), b.length ≤ n → b.length ≤ m →
      framesAux n b = framesAux m b := by
  intro n
  induction n with
  | zero =>
    intro m b hn _
    obtain rfl : b = [] := List.length_eq_zero.mp (Nat.le_zero.mp hn)
    cases m with
    | zero => rfl
    | succ m' => rfl
  | succ n' ih =>
    intro m b hn hm
    cases m with
    | zero =>
      obtain rfl : b = [] := List.length_eq_zero.mp (Nat.le_zero.mp hm)
      rfl
    | succ m' =>
      cases hfd : findDelim b with
      | none => simp only [framesAux, hfd]
      | some p =>
        obtain ⟨f, r⟩ := p
        have hlen := findDelim_some_length b f r hfd
        simp only [framesAux, hfd]
        rw [ih m' r (by omega) (by omega)]

set_option maxHeartbeats 1000000 in
/-- With no complete frame buffered, draining is a no-op. -/
theorem drainLoop_none (v : Bool) (b : List Char) (h : findDelim b = none) :
    drainLoop v b = ⟨[], b, none⟩ := by
  cases b with
  | nil => rfl
  | cons a rest =>
    show drainAux v (rest.length + 1) (a :: rest) = _
    simp only [drainAux, h]

set_option maxHeartbeats 1000000 in
/-- A leading sentinel frame breaks out of the drain, retaining the rest of
the buffer and emitting nothing. -/
theorem drainLoop_sent (b r : List Char) (h : findDelim b = some (sentinel, r)) :
    drainLoop false b = ⟨[], r, none⟩ := by
  cases b with
  | nil => simp [findDelim] at h
  | cons a rest =>
    show drainAux false (rest.length + 1) (a :: rest) = _
    simp only [drainAux, h]
    simp

set_option maxHeartbeats 1000000 in
/-- A leading error-envelope frame aborts the drain with its message. -/
theorem drainLoop_err (b f r e : List Char) (h : findDelim b = some (f, r))
    (hf : f ≠ sentinel) (hp : processStreamChunk f = Except.error e) :
    drainLoop false b = ⟨[], r, some e⟩ := by
  cases b with
  | nil => simp [findDelim] at h
  | cons a rest =>
    show drainAux false (rest.length + 1) (a :: rest) = _
    simp only [drainAux, h, hp]
    simp [hf]

set_option maxHeartbeats 1000000 in
/-- A leading ordinary frame contributes its fragment and the drain
continues on the remainder. -/
theorem drainLoop_ok (b f r s : List Char) (h : findDelim b = some (f, r))
    (hf : f ≠ sentinel) (hp : processStreamChunk f = Except.ok s) :
    drainLoop false b = ⟨emitOf s ++ (drainLoop false r).emitted,
      (drainLoop false r).buffer, (drainLoop false r).error⟩ := by
  cases b with
  | nil => simp [findDelim] at h
  | cons a rest =>
    have hlen := findDelim_some_length _ _ _ h
    show drainAux false (rest.length + 1) (a :: rest) = _
    simp only [drainAux, h, hp]
    rw [drainAux_fuel false rest.length r.length r
      (by simp only [List.length_cons] at hlen; omega) (le_refl _)]
    simp [hf, drainLoop]

/-- A buffer with no delimiter has no complete frame. -/
theorem framesOf_none (b : List Char) (h : findDelim b = none) :
    framesOf b = [] := by
  cases b with
  | nil => rfl
  | cons a rest =>
    show framesAux (rest.length + 1) (a :: rest) = _
    simp only [framesAux, h]

/-- Peeling the first frame off the frame decomposition. -/
theorem framesOf_some (b f r : List Char) (h : findDelim b = some (f, r)) :
    framesOf b = f :: framesOf r := by
  cases b with
  | nil => simp [findDelim] at h
  | cons a rest =>
    have hlen := findDelim_some_length _ _ _ h
    show framesAux (rest.length + 1) (a :: rest) = _
    simp only [framesAux, h]
    rw [framesAux_fuel rest.length r.length r
      (by simp only [List.length_cons] at hlen; omega) (le_refl _)]
    rfl

/-- Every complete frame of a buffer is still a complete frame after
appending more bytes. -/
theorem framesOf_mem_append (b c x : List Char) (h : x ∈ framesOf b) :
    x ∈ framesOf (b ++ c) := by
  cases hfd : findDelim b with
  | none => rw [framesOf_none b hfd] at h; cases h
  | some p =>
    obtain ⟨f, r⟩ := p
    have hlen := findDelim_some_length b f r hfd
    rw [framesOf_some b f r hfd] at h
    rw [framesOf_some (b ++ c) f (r ++ c) (findDelim_append b c f r hfd)]
    cases h with
    | head => exact List.mem_cons_self _ _
    | tail _ hm => exact List.mem_cons_of_mem _ (framesOf_mem_append r c x hm)
termination_by b.length
decreasing_by omega

/-- If draining a sentinel-free buffer aborts with an error, draining the
same buffer with more bytes appended emits the same fragments and aborts
with the same error. -/
theorem drain_append_err (b c : List Char) (hs : sentinel ∉ framesOf b)
    (e : List Char) (he : (drainLoop false b).error = some e) :
    (drainLoop false (b ++ c)).emitted = (drainLoop false b).emitted ∧
    (drainLoop false (b ++ c)).error = some e := by
  cases hfd : findDelim b with
  | none => rw [drainLoop_none false b hfd] at he; cases he
  | some p =>
    obtain ⟨f, r⟩ := p
    have hlen := findDelim_some_length b f r hfd
    have hfr : f ≠ sentinel := by
      intro hfe
      exact hs (hfe ▸ (framesOf_some b f r hfd ▸ List.mem_cons_self f (framesOf r)))
    have hs' : sentinel ∉ framesOf r := by
      intro hm
      exact hs (framesOf_some b f r hfd ▸ List.mem_cons_of_mem f hm)
    have hfd' := findDelim_append b c f r hfd
    cases hp : processStreamChunk f with
    | error e' =>
      rw [drainLoop_err b f r e' hfd hfr hp] at he ⊢
      have hee : e' = e := Option.some.inj he
      rw [drainLoop_err (b ++ c) f (r ++ c) e' hfd' hfr hp]
      exact ⟨rfl, by rw [hee]⟩
    | ok s =>
      rw [drainLoop_ok b f r s hfd hfr hp] at he ⊢
      have her : (drainLoop false r).error = some e := he
      obtain ⟨ih1, ih2⟩ := drain_append_err r c hs' e her
      rw [drainLoop_ok (b ++ c) f (r ++ c) s hfd' hfr hp]
      exact ⟨by simp [ih1], ih2⟩
termination_by b.length
decreasing_by omega

/-- If draining a sentinel-free buffer completes without error, draining
with more bytes appended is the same as draining the retained buffer with
those bytes. -/
theorem drain_append_ok (b c : List Char) (hs : sentinel ∉ framesOf b)
    (he : (drainLoop false b).error = none) :
    drainLoop false (b ++ c) =
      ⟨(drainLoop false b).emitted ++
         (drainLoop false ((drainLoop false b).buffer ++ c)).emitted,
       (drainLoop false ((drainLoop false b).buffer ++ c)).buffer,
       (drainLoop false ((drainLoop false b).buffer ++ c)).error⟩ := by
  cases hfd : findDelim b with
  | none =>
    rw [drainLoop_none false b hfd]
    simp
  | some p =>
    obtain ⟨f, r⟩ := p
    have hlen := findDelim_some_length b f r hfd
    have hfr : f ≠ sentinel := by
      intro hfe
      exact hs (hfe ▸ (framesOf_some b f r hfd ▸ List.mem_cons_self f (framesOf r)))
    have hs' : sentinel ∉ framesOf r := by
      intro hm
      exact hs (framesOf_some b f r hfd ▸ List.mem_cons_of_mem f hm)
    have hfd' := findDelim_append b c f r hfd
    cases hp : processStreamChunk f with
    | error e' =>
      rw [drainLoop_err b f r e' hfd hfr hp] at he
      cases he
    | ok s =>
      rw [drainLoop_ok b f r s hfd hfr hp] at he ⊢
      have her : (drainLoop false r).error = none := he
      have ih := drain_append_ok r c hs' her
      rw [drainLoop_ok (b ++ c) f (r ++ c) s hfd' hfr hp, ih]
      simp
termination_by b.length
decreasing_by omega

/-- Two adjacent transport chunks can be merged without changing the
decoder's output, provided the frames completed so far never contain the
sentinel. -/
theorem run_merge (b c1 c2 : List Char) (cs : List (List Char))
    (hs : sentinel ∉ framesOf (b ++ c1)) :
    runChunks false b (c1 :: c2 :: cs) = runChunks false b ((c1 ++ c2) :: cs) := by
  have hassoc : b ++ (c1 ++ c2) = (b ++ c1) ++ c2 := (List.append_assoc b c1 c2).symm
  simp only [runChunks]
  rw [hassoc]
  cases he : (drainLoop false (b ++ c1)).error with
  | some e =>
    obtain ⟨h1, h2⟩ := drain_append_err (b ++ c1) c2 hs e he
    rw [h2, h1]
  | none =>
    have hok := drain_append_ok (b ++ c1) c2 hs he
    rw [hok]
    simp only []
    cases he2 : (drainLoop false ((drainLoop false (b ++ c1)).buffer ++ c2)).error with
    | some e2 => simp [he2]
    | none => simp [he2, List.append_assoc]

/-- C2 (amended): for the event-stream (Anthropic) provider in non-verbose
mode, as long as no complete frame of the payload is the terminal sentinel,
the fragments passed to the sink and the final outcome are identical for
every partition of the payload into transport chunks — dividing the payload
arbitrarily is the same as delivering it in a single chunk.  (The original
claim fails for sentinel-bearing payloads and for the object-stream
provider; see the counterexample.) -/
theorem chunk_boundary_invariance_no_sentinel (cs : List (List Char))
    (hs : sentinel ∉ framesOf (concatL cs)) :
    streamAnthropic false cs = streamAnthropic false [concatL cs] := by
  match cs with
  | [] => rfl
  | [c] =>
    show streamAnthropic false [c] = streamAnthropic false [c ++ []]
    rw [List.append_nil]
  | c1 :: c2 :: cs' =>
    have hcat : concatL ((c1 ++ c2) :: cs') = concatL (c1 :: c2 :: cs') := by
      show (c1 ++ c2) ++ concatL cs' = c1 ++ (c2 ++ concatL cs')
      rw [List.append_assoc]
    have h1 : sentinel ∉ framesOf ([] ++ c1) := by
      intro hm
      apply hs
      have hc : concatL (c1 :: c2 :: cs') = c1 ++ concatL (c2 :: cs') := rfl
      rw [hc]
      exact framesOf_mem_append c1 _ _ (by simpa using hm)
    have hs2 : sentinel ∉ framesOf (concatL ((c1 ++ c2) :: cs')) := by
      rw [hcat]; exact hs
    have ih := chunk_boundary_invariance_no_sentinel ((c1 ++ c2) :: cs') hs2
    calc streamAnthropic false (c1 :: c2 :: cs')
        = runChunks false [] ((c1 ++ c2) :: cs') := run_merge [] c1 c2 cs' h1
      _ = streamAnthropic false [concatL ((c1 ++ c2) :: cs')] := ih
      _ = streamAnthropic false [concatL (c1 :: c2 :: cs')] := by rw [hcat]
termination_by cs.length
decreasing_by simp

/- ## Claim theorems -/

/-- C1: contrary to the buffering the spec requires, the object-stream
(Gemini) decoder parses each transport chunk in isolation: a JSON object
split across two chunks (the spec's own example split) aborts the call with
the chunk-parse failure, while the same bytes delivered whole decode to the
text fragment. -/
theorem gemini_split_object_aborts :
    geminiRun [gSplitA, gSplitB] =
      ([], some ("Failed to parse chunk as GeminiResponse".toList)) ∧
    geminiRun [gSplitA ++ gSplitB] = (["ok".toList], none) :=
  ⟨rfl, rfl⟩

/-- C2 (counterexample): chunk-boundary invariance fails as stated: the
object-stream provider errors on a split that succeeds in one chunk, and the
event-stream provider processes a payload after the sentinel differently
depending on whether it arrives in the same or a later transport chunk. -/
theorem chunk_boundary_invariance_cex :
    geminiRun [gHiChunk.take 20, gHiChunk.drop 20] ≠ geminiRun [gHiChunk] ∧
    streamAnthropic false [doneChunk, hiPayload] ≠
      streamAnthropic false [doneChunk ++ hiPayload] :=
  ⟨by decide, by decide⟩

/-- C2 (witness): the invariance theorem applied to a concrete two-chunk
split of a sentinel-free payload. -/
theorem chunk_boundary_invariance_no_sentinel_app :
    sentinel ∉ framesOf (concatL [hiPayload.take 40, hiPayload.drop 40]) ∧
    streamAnthropic false [hiPayload.take 40, hiPayload.drop 40] =
      streamAnthropic false [concatL [hiPayload.take 40, hiPayload.drop 40]] :=
  ⟨by decide, chunk_boundary_invariance_no_sentinel _ (by decide)⟩

/-- C3 (amended): in non-verbose mode the sentinel frame produces no
fragment and stops the draining of everything already buffered behind it in
the same transport chunk, and the call then ends with success when the
transport closes; frames arriving in later transport chunks are, however,
still processed (see the counterexample). -/
theorem sentinel_stops_current_drain (x : List Char) :
    streamAnthropic false [doneChunk ++ x] = ([], none) := by
  have h1 : findDelim (doneChunk ++ x) = some (sentinel, x) :=
    findDelim_flat sentinel x (by decide)
  show runChunks false [] [doneChunk ++ x] = ([], none)
  simp only [runChunks, List.nil_append]
  rw [drainLoop_sent (doneChunk ++ x) x h1]
  rfl

/-- C3 (counterexample): a content frame arriving in a transport chunk after
the sentinel is still processed and its fragment delivered to the sink, so
the sentinel does not end the stream. -/
theorem sentinel_not_global_stop :
    streamAnthropic false [doneChunk, hiPayload] = (["Hi".toList], none) := by
  decide

/-- C4: a well-formed error-envelope frame makes the streaming call fail
with the envelope's type and message joined as `overloaded_error: x`,
emitting no fragment for it, and no later transport chunk is processed or
delivered to the sink. -/
theorem error_frame_aborts_stream (rest : List (List Char)) :
    streamAnthropic false (errFrameChunk :: rest) =
      ([], some ("overloaded_error: x".toList)) := by
  show runChunks false [] (errFrameChunk :: rest) = _
  simp only [runChunks, List.nil_append]
  rw [show drainLoop false errFrameChunk =
    ⟨[], [], some ("overloaded_error: x".toList)⟩ from by decide]

/-- C5: a frame whose cleaned payload parses as neither a content-delta
structure nor (after the second cleaning) an error-envelope structure is
processed into an empty fragment with success — the driver therefore
delivers nothing to the sink and no error reaches the caller. -/
theorem unparsed_frame_is_swallowed (f : List Char)
    (h1 : parseAnthropicChunk (cleanedPayload f) = none)
    (h2 : parseAnthropicError (cleanedErrorPayload (cleanedPayload f)) = none) :
    processStreamChunk f = Except.ok [] := by
  simp only [processStreamChunk, h1, h2]

/-- C5 (witness): the ping control frame satisfies both parse-failure
hypotheses and is swallowed. -/
theorem unparsed_frame_is_swallowed_app :
    (parseAnthropicChunk (cleanedPayload pingFrame) = none ∧
     parseAnthropicError (cleanedErrorPayload (cleanedPayload pingFrame)) = none) ∧
    processStreamChunk pingFrame = Except.ok [] :=
  ⟨⟨rfl, rfl⟩, unparsed_frame_is_swallowed pingFrame rfl rfl⟩

/-- C6: the complete content-delta payload of the spec delivers exactly one
fragment, `Hi`, to the sink, and the call succeeds. -/
theorem delta_payload_yields_single_fragment :
    streamAnthropic false [hiPayload] = (["Hi".toList], none) := by
  decide

/-- C9 (amended): for a transport chunk that decodes as a Gemini response,
every part contributes through `geminiPartFrag`: text parts verbatim,
function-call parts as a distinct serialized fragment — but function-response
parts are silently dropped rather than passed to the sink (see the
counterexample against the original claim). -/
theorem gemini_stream_parts_amended (chunk : List Char) (resp : GeminiResponseM)
    (h1 : rustTrim chunk ≠ []) (h2 : parseGeminiResponse chunk = some resp) :
    geminiStep chunk = Except.ok (geminiFragments resp) ∧
    (∀ nm ag, geminiPartFrag (GeminiPartM.functionCall nm ag) =
        some (serializeFunctionCall nm ag)) ∧
    (∀ nm rp, geminiPartFrag (GeminiPartM.functionResponse nm rp) = none) := by
  refine ⟨?_, fun _ _ => rfl, fun _ _ => rfl⟩
  unfold geminiStep
  rw [if_neg h1, h2]

/-- C9 (witness): the theorem applied to a concrete function-call chunk. -/
theorem gemini_stream_parts_amended_app :
    (rustTrim gFnCallChunk ≠ [] ∧
     parseGeminiResponse gFnCallChunk = some gFnCallResp) ∧
    geminiStep gFnCallChunk = Except.ok
      [serializeFunctionCall "f".toList (JVal.obj [("a".toList, JVal.num ['1'])])] :=
  ⟨⟨by decide, rfl⟩,
   (gemini_stream_parts_amended gFnCallChunk gFnCallResp (by decide) rfl).1⟩

/-- C9 (counterexample): a decoded response whose only part is a function
response yields no fragment at all — the part is dropped, not delivered. -/
theorem function_response_dropped_cex :
    geminiRun [gFnRespChunk] = ([], none) ∧
    (parseGeminiResponse gFnRespChunk).isSome = true :=
  ⟨rfl, rfl⟩

/-- Scanning a part list with no text part among the prefix finds the first
text part. -/
theorem firstTextPart_no_text_pre (pre : List GeminiPartM) (t : List Char)
    (post : List GeminiPartM)
    (h : ∀ p ∈ pre, ∀ u, p ≠ GeminiPartM.text u) :
    firstTextPart (pre ++ GeminiPartM.text t :: post) = some t := by
  induction pre with
  | nil => rfl
  | cons p pre' ih =>
    rw [List.cons_append]
    cases p with
    | text u => exact absurd rfl (h _ (List.mem_cons_self _ _) u)
    | functionCall nm ag =>
      exact ih (fun q hq u => h q (List.mem_cons_of_mem _ hq) u)
    | functionResponse nm rp =>
      exact ih (fun q hq u => h q (List.mem_cons_of_mem _ hq) u)

/-- C10: for buffered `send_message` on a 2xx response, the Anthropic client
returns the text of the first content item and fails with
`No text content in response` whenever that first item is not text (even if
a later item is); the Gemini client returns the first candidate's first text
part, skipping earlier non-text parts. -/
theorem send_message_first_item_extraction :
    (∀ (resp : AnthropicResponseFullM) (t : List Char) (rest : List ContentItemM),
        resp.content = ContentItemM.text t :: rest →
        anthropicHandleOk resp = Except.ok t) ∧
    (∀ (resp : AnthropicResponseFullM) (i n : List Char) (inp : JVal)
        (rest : List ContentItemM),
        resp.content = ContentItemM.toolUse i n inp :: rest →
        anthropicHandleOk resp =
          Except.error ("No text content in response".toList)) ∧
    (∀ (resp : GeminiResponseM) (cand : GeminiCandidateM)
        (rest : List GeminiCandidateM) (pre : List GeminiPartM) (t : List Char)
        (post : List GeminiPartM),
        resp.candidates = cand :: rest →
        cand.content.parts = pre ++ GeminiPartM.text t :: post →
        (∀ p ∈ pre, ∀ u, p ≠ GeminiPartM.text u) →
        geminiHandleOk resp = Except.ok t) := by
  refine ⟨?_, ?_, ?_⟩
  · intro resp t rest h
    unfold anthropicHandleOk
    rw [h]
    rfl
  · intro resp i n inp rest h
    unfold anthropicHandleOk
    rw [h]
    rfl
  · intro resp cand rest pre t post h1 h2 h3
    have hx : extractTextFromCandidate cand = some t := by
      unfold extractTextFromCandidate
      rw [h2]
      exact firstTextPart_no_text_pre pre t post h3
    unfold geminiHandleOk
    rw [h1]
    simp only [List.head?_cons, hx]

/-- C10 (witness): the three extraction behaviours at concrete responses. -/
theorem send_message_first_item_extraction_app :
    anthropicHandleOk respTextFirst = Except.ok ("hello".toList) ∧
    anthropicHandleOk respToolFirst =
      Except.error ("No text content in response".toList) ∧
    geminiHandleOk respGeminiMixed = Except.ok ("g".toList) :=
  ⟨send_message_first_item_extraction.1 respTextFirst _ _ rfl,
   send_message_first_item_extraction.2.1 respToolFirst "t".toList "f".toList
     JVal.null _ rfl,
   send_message_first_item_extraction.2.2 respGeminiMixed _ []
     [GeminiPartM.functionCall "f".toList JVal.null] "g".toList [] rfl rfl
     (by intro p hp u; rw [List.mem_singleton] at hp; subst hp; simp)⟩

/-- Membership in the key projection of an optional entry forces the key. -/
theorem mem_fst_optEntry {k' k : List Char} {o : Option JVal}
    (h : k' ∈ (optEntry k o).map Prod.fst) : k' = k := by
  cases o with
  | none => simp [optEntry] at h
  | some v => simpa [optEntry] using h

/-- An optional entry for an unset option contributes no key. -/
theorem not_mem_fst_optEntry_none {k' k : List Char}
    (h : k' ∈ (optEntry k (none : Option JVal)).map Prod.fst) : False := by
  simp [optEntry] at h

/-- Characterisation of the keys of the Anthropic body map: the two required
fields, plus one key per set option. -/
theorem anthropic_keys_charact (cfg : LLMConfigM) (content : List Char)
    (md : Option JVal) (k' : List Char)
    (h : k' ∈ anthropicBodyKeys cfg content md) :
    k' = "model".toList ∨ k' = "messages".toList ∨
    (k' = "max_tokens".toList ∧ cfg.max_tokens ≠ none) ∨
    (k' = "temperature".toList ∧ cfg.temperature ≠ none) ∨
    (k' = "system".toList ∧ cfg.system_prompt ≠ none) ∨
    (k' = "tools".toList ∧ cfg.tools ≠ none) ∨
    (k' = "stop_sequences".toList ∧ cfg.stop_sequences ≠ none) ∨
    (k' = "top_p".toList ∧ cfg.top_p ≠ none) ∨
    (k' = "top_k".toList ∧ cfg.top_k ≠ none) ∨
    (k' = "metadata".toList ∧ md ≠ none) := by
  unfold anthropicBodyKeys anthropicBodyFields at h
  simp only [List.map_append, List.mem_append, List.map_cons, List.map_nil,
    List.mem_cons, List.not_mem_nil, or_false] at h
  rcases h with (((((((((h | h) | h) | h) | h) | h) | h) | h) | h) | h)
  · exact Or.inl h
  · exact Or.inr (Or.inl h)
  · refine Or.inr (Or.inr (Or.inl ⟨mem_fst_optEntry h, fun hn => ?_⟩))
    rw [hn] at h
    exact not_mem_fst_optEntry_none h
  · refine Or.inr (Or.inr (Or.inr (Or.inl ⟨mem_fst_optEntry h, fun hn => ?_⟩)))
    rw [hn] at h
    exact not_mem_fst_optEntry_none h
  · refine Or.inr (Or.inr (Or.inr (Or.inr (Or.inl
      ⟨mem_fst_optEntry h, fun hn => ?_⟩))))
    rw [hn] at h
    exact not_mem_fst_optEntry_none h
  · refine Or.inr (Or.inr (Or.inr (Or.inr (Or.inr (Or.inl
      ⟨mem_fst_optEntry h, fun hn => ?_⟩)))))
    rw [hn] at h
    exact not_mem_fst_optEntry_none h
  · refine Or.inr (Or.inr (Or.inr (Or.inr (Or.inr (Or.inr (Or.inl
      ⟨mem_fst_optEntry h, fun hn => ?_⟩))))))
    rw [hn] at h
    exact not_mem_fst_optEntry_none h
  · refine Or.inr (Or.inr (Or.inr (Or.inr (Or.inr (Or.inr (Or.inr (Or.inl
      ⟨mem_fst_optEntry h, fun hn => ?_⟩)))))))
    rw [hn] at h
    exact not_mem_fst_optEntry_none h
  · refine Or.inr (Or.inr (Or.inr (Or.inr (Or.inr (Or.inr (Or.inr (Or.inr
      (Or.inl ⟨mem_fst_optEntry h, fun hn => ?_⟩))))))))
    rw [hn] at h
    exact not_mem_fst_optEntry_none h
  · refine Or.inr (Or.inr (Or.inr (Or.inr (Or.inr (Or.inr (Or.inr (Or.inr
      (Or.inr ⟨mem_fst_optEntry h, fun hn => ?_⟩))))))))
    rw [hn] at h
    exact not_mem_fst_optEntry_none h

/-- C7 (amended): the Anthropic request builder omits every unset option
from the body map entirely; the Gemini builder instead serializes unset
generation options as explicit `null` fields of `generationConfig` (the
config struct has no `skip_serializing_if`), so the original claim holds for
the Anthropic adapter only (see the counterexample for Gemini). -/
theorem unset_options_body_amended :
    (∀ (cfg : LLMConfigM) (content : List Char) (md : Option JVal),
        cfg.max_tokens = none →
        "max_tokens".toList ∉ anthropicBodyKeys cfg content md) ∧
    (∀ (cfg : LLMConfigM) (content : List Char) (md : Option JVal),
        cfg.temperature = none →
        "temperature".toList ∉ anthropicBodyKeys cfg content md) ∧
    (∀ (cfg : LLMConfigM) (content : List Char) (md : Option JVal),
        cfg.system_prompt = none →
        "system".toList ∉ anthropicBodyKeys cfg content md) ∧
    (∀ (cfg : LLMConfigM) (content : List Char) (md : Option JVal),
        cfg.tools = none →
        "tools".toList ∉ anthropicBodyKeys cfg content md) ∧
    (∀ (cfg : LLMConfigM) (content : List Char) (md : Option JVal),
        cfg.stop_sequences = none →
        "stop_sequences".toList ∉ anthropicBodyKeys cfg content md) ∧
    (∀ (cfg : LLMConfigM) (content : List Char) (md : Option JVal),
        cfg.top_p = none →
        "top_p".toList ∉ anthropicBodyKeys cfg content md) ∧
    (∀ (cfg : LLMConfigM) (content : List Char) (md : Option JVal),
        cfg.top_k = none →
        "top_k".toList ∉ anthropicBodyKeys cfg content md) ∧
    (∀ cfg : LLMConfigM, cfg.temperature = none →
        (geminiGenConfigFields cfg).get? 0 =
          some ("temperature".toList, JVal.null)) ∧
    (∀ cfg : LLMConfigM, cfg.top_p = none →
        (geminiGenConfigFields cfg).get? 1 = some ("top_p".toList, JVal.null)) ∧
    (∀ cfg : LLMConfigM, cfg.top_k = none →
        (geminiGenConfigFields cfg).get? 2 = some ("top_k".toList, JVal.null)) ∧
    (∀ cfg : LLMConfigM, cfg.max_tokens = none →
        (geminiGenConfigFields cfg).get? 3 =
          some ("max_output_tokens".toList, JVal.null)) ∧
    (∀ cfg : LLMConfigM, cfg.stop_sequences = none →
        (geminiGenConfigFields cfg).get? 4 =
          some ("stop_sequences".toList, JVal.null)) := by
  refine ⟨?_, ?_, ?_, ?_, ?_, ?_, ?_, ?_, ?_, ?_, ?_, ?_⟩
  · intro cfg content md h hmem
    rcases anthropic_keys_charact cfg content md _ hmem with
      h1 | h1 | ⟨h1, h2⟩ | ⟨h1, _⟩ | ⟨h1, _⟩ | ⟨h1, _⟩ | ⟨h1, _⟩ | ⟨h1, _⟩ |
      ⟨h1, _⟩ | ⟨h1, _⟩
    · exact absurd h1 (by decide)
    · exact absurd h1 (by decide)
    · exact h2 h
    · exact absurd h1 (by decide)
    · exact absurd h1 (by decide)
    · exact absurd h1 (by decide)
    · exact absurd h1 (by decide)
    · exact absurd h1 (by decide)
    · exact absurd h1 (by decide)
    · exact absurd h1 (by decide)
  · intro cfg content md h hmem
    rcases anthropic_keys_charact cfg content md _ hmem with
      h1 | h1 | ⟨h1, _⟩ | ⟨h1, h2⟩ | ⟨h1, _⟩ | ⟨h1, _⟩ | ⟨h1, _⟩ | ⟨h1, _⟩ |
      ⟨h1, _⟩ | ⟨h1, _⟩
    · exact absurd h1 (by decide)
    · exact absurd h1 (by decide)
    · exact absurd h1 (by decide)
    · exact h2 h
    · exact absurd h1 (by decide)
    · exact absurd h1 (by decide)
    · exact absurd h1 (by decide)
    · exact absurd h1 (by decide)
    · exact absurd h1 (by decide)
    · exact absurd h1 (by decide)
  · intro cfg content md h hmem
    rcases anthropic_keys_charact cfg content md _ hmem with
      h1 | h1 | ⟨h1, _⟩ | ⟨h1, _⟩ | ⟨h1, h2⟩ | ⟨h1, _⟩ | ⟨h1, _⟩ | ⟨h1, _⟩ |
      ⟨h1, _⟩ | ⟨h1, _⟩
    · exact absurd h1 (by decide)
    · exact absurd h1 (by decide)
    · exact absurd h1 (by decide)
    · exact absurd h1 (by decide)
    · exact h2 h
    · exact absurd h1 (by decide)
    · exact absurd h1 (by decide)
    · exact absurd h1 (by decide)
    · exact absurd h1 (by decide)
    · exact absurd h1 (by decide)
  · intro cfg content md h hmem
    rcases anthropic_keys_charact cfg content md _ hmem with
      h1 | h1 | ⟨h1, _⟩ | ⟨h1, _⟩ | ⟨h1, _⟩ | ⟨h1, h2⟩ | ⟨h1, _⟩ | ⟨h1, _⟩ |
      ⟨h1, _⟩ | ⟨h1, _⟩
    · exact absurd h1 (by decide)
    · exact absurd h1 (by decide)
    · exact absurd h1 (by decide)
    · exact absurd h1 (by decide)
    · exact absurd h1 (by decide)
    · exact h2 h
    · exact absurd h1 (by decide)
    · exact absurd h1 (by decide)
    · exact absurd h1 (by decide)
    · exact absurd h1 (by decide)
  · intro cfg content md h hmem
    rcases anthropic_keys_charact cfg content md _ hmem with
      h1 | h1 | ⟨h1, _⟩ | ⟨h1, _⟩ | ⟨h1, _⟩ | ⟨h1, _⟩ | ⟨h1, h2⟩ | ⟨h1, _⟩ |
      ⟨h1, _⟩ | ⟨h1, _⟩
    · exact absurd h1 (by decide)
    · exact absurd h1 (by decide)
    · exact absurd h1 (by decide)
    · exact absurd h1 (by decide)
    · exact absurd h1 (by decide)
    · exact absurd h1 (by decide)
    · exact h2 h
    · exact absurd h1 (by decide)
    · exact absurd h1 (by decide)
    · exact absurd h1 (by decide)
  · intro cfg content md h hmem
    rcases anthropic_keys_charact cfg content md _ hmem with
      h1 | h1 | ⟨h1, _⟩ | ⟨h1, _⟩ | ⟨h1, _⟩ | ⟨h1, _⟩ | ⟨h1, _⟩ | ⟨h1, h2⟩ |
      ⟨h1, _⟩ | ⟨h1, _⟩
    · exact absurd h1 (by decide)
    · exact absurd h1 (by decide)
    · exact absurd h1 (by decide)
    · exact absurd h1 (by decide)
    · exact absurd h1 (by decide)
    · exact absurd h1 (by decide)
    · exact absurd h1 (by decide)
    · exact h2 h
    · exact absurd h1 (by decide)
    · exact absurd h1 (by decide)
  · intro cfg content md h hmem
    rcases anthropic_keys_charact cfg content md _ hmem with
      h1 | h1 | ⟨h1, _⟩ | ⟨h1, _⟩ | ⟨h1, _⟩ | ⟨h1, _⟩ | ⟨h1, _⟩ | ⟨h1, _⟩ |
      ⟨h1, h2⟩ | ⟨h1, _⟩
    · exact absurd h1 (by decide)
    · exact absurd h1 (by decide)
    · exact absurd h1 (by decide)
    · exact absurd h1 (by decide)
    · exact absurd h1 (by decide)
    · exact absurd h1 (by decide)
    · exact absurd h1 (by decide)
    · exact absurd h1 (by decide)
    · exact h2 h
    · exact absurd h1 (by decide)
  · intro cfg h
    obtain ⟨ak, mo, te, mt, st, sy, tl, ss, tp, tk⟩ := cfg
    cases te with
    | some x => exact Option.noConfusion h
    | none => rfl
  · intro cfg h
    obtain ⟨ak, mo, te, mt, st, sy, tl, ss, tp, tk⟩ := cfg
    cases tp with
    | some x => exact Option.noConfusion h
    | none => rfl
  · intro cfg h
    obtain ⟨ak, mo, te, mt, st, sy, tl, ss, tp, tk⟩ := cfg
    cases tk with
    | some x => exact Option.noConfusion h
    | none => rfl
  · intro cfg h
    obtain ⟨ak, mo, te, mt, st, sy, tl, ss, tp, tk⟩ := cfg
    cases mt with
    | some x => exact Option.noConfusion h
    | none => rfl
  · intro cfg h
    obtain ⟨ak, mo, te, mt, st, sy, tl, ss, tp, tk⟩ := cfg
    cases ss with
    | some x => exact Option.noConfusion h
    | none => rfl

/-- C7 (witness): the amended theorem applied to the all-unset configuration. -/
theorem unset_options_body_amended_app :
    (cfgUnset.max_tokens = none ∧ cfgUnset.temperature = none ∧
     cfgUnset.system_prompt = none ∧ cfgUnset.tools = none ∧
     cfgUnset.stop_sequences = none ∧ cfgUnset.top_p = none ∧
     cfgUnset.top_k = none) ∧
    "max_tokens".toList ∉ anthropicBodyKeys cfgUnset "hi".toList none ∧
    "temperature".toList ∉ anthropicBodyKeys cfgUnset "hi".toList none ∧
    "system".toList ∉ anthropicBodyKeys cfgUnset "hi".toList none ∧
    "tools".toList ∉ anthropicBodyKeys cfgUnset "hi".toList none ∧
    "stop_sequences".toList ∉ anthropicBodyKeys cfgUnset "hi".toList none ∧
    "top_p".toList ∉ anthropicBodyKeys cfgUnset "hi".toList none ∧
    "top_k".toList ∉ anthropicBodyKeys cfgUnset "hi".toList none ∧
    (geminiGenConfigFields cfgUnset).get? 0 =
      some ("temperature".toList, JVal.null) ∧
    (geminiGenConfigFields cfgUnset).get? 3 =
      some ("max_output_tokens".toList, JVal.null) :=
  ⟨⟨rfl, rfl, rfl, rfl, rfl, rfl, rfl⟩,
   unset_options_body_amended.1 cfgUnset "hi".toList none rfl,
   unset_options_body_amended.2.1 cfgUnset "hi".toList none rfl,
   unset_options_body_amended.2.2.1 cfgUnset "hi".toList none rfl,
   unset_options_body_amended.2.2.2.1 cfgUnset "hi".toList none rfl,
   unset_options_body_amended.2.2.2.2.1 cfgUnset "hi".toList none rfl,
   unset_options_body_amended.2.2.2.2.2.1 cfgUnset "hi".toList none rfl,
   unset_options_body_amended.2.2.2.2.2.2.1 cfgUnset "hi".toList none rfl,
   unset_options_body_amended.2.2.2.2.2.2.2.1 cfgUnset rfl,
   unset_options_body_amended.2.2.2.2.2.2.2.2.2.2.1 cfgUnset rfl⟩

/-- C7 (counterexample): with every option unset, the Gemini request body's
`generation_config` entry carries all five generation options as explicit
nulls instead of omitting them. -/
theorem gemini_unset_options_null_cex :
    (geminiRequestFields cfgUnset "hi".toList [] none).get? 3 =
      some ("generation_config".toList, JVal.obj
        [("temperature".toList, JVal.null),
         ("top_p".toList, JVal.null),
         ("top_k".toList, JVal.null),
         ("max_output_tokens".toList, JVal.null),
         ("stop_sequences".toList, JVal.null)]) ∧
    cfgUnset.temperature = none ∧ cfgUnset.top_p = none ∧
    cfgUnset.top_k = none ∧ cfgUnset.max_tokens = none ∧
    cfgUnset.stop_sequences = none :=
  ⟨rfl, rfl, rfl, rfl, rfl, rfl⟩

/-- C8 (amended): on a non-2xx response the Anthropic client always surfaces
the generic status-and-raw-body message without attempting an envelope
parse, while the Gemini client always attempts the envelope parse, surfaces
the envelope's code and message on success, and surfaces the fixed
envelope-parse-failure message — not a status/body error — when the parse
fails. -/
theorem non2xx_error_handling_amended :
    (∀ statusDisplay body : List Char,
        anthropicSendErrMsg statusDisplay body =
          "Request failed (".toList ++ statusDisplay ++ "): ".toList ++ body) ∧
    (∀ (body : List Char) (e : GeminiErrorM), parseGeminiError body = some e →
        geminiSendErrMsg body =
          "API Error (".toList ++ intToRaw e.code ++ "): ".toList ++ e.message) ∧
    (∀ body : List Char, parseGeminiError body = none →
        geminiSendErrMsg body = "Failed to parse error response".toList) := by
  refine ⟨fun _ _ => rfl, ?_, ?_⟩
  · intro body e h
    unfold geminiSendErrMsg
    rw [h]
  · intro body h
    unfold geminiSendErrMsg
    rw [h]

/-- C8 (witness): the amended behaviours at concrete bodies. -/
theorem non2xx_error_handling_amended_app :
    parseGeminiError gErrBody =
      some ⟨400, "bad".toList, "INVALID_ARGUMENT".toList⟩ ∧
    geminiSendErrMsg gErrBody = "API Error (400): bad".toList ∧
    geminiSendErrMsg "oops".toList = "Failed to parse error response".toList ∧
    anthropicSendErrMsg "400 Bad Request".toList anthEnvBody =
      "Request failed (400 Bad Request): ".toList ++ anthEnvBody :=
  ⟨rfl,
   non2xx_error_handling_amended.2.1 gErrBody
     ⟨400, "bad".toList, "INVALID_ARGUMENT".toList⟩ rfl,
   non2xx_error_handling_amended.2.2 "oops".toList rfl,
   non2xx_error_handling_amended.1 "400 Bad Request".toList anthEnvBody⟩

/-- C8 (counterexample): the Anthropic client's non-2xx message stays
generic even when the body is a parseable error envelope (it never carries
the envelope's type/message), and the Gemini client's message on an
unparseable body is the fixed parse-failure text, which does not even
contain the raw body. -/
theorem non2xx_error_handling_cex :
    (parseAnthropicError anthEnvBody).isSome = true ∧
    anthropicSendErrMsg "400 Bad Request".toList anthEnvBody ≠
      "overloaded_error: x".toList ∧
    parseGeminiError "oops".toList = none ∧
    geminiSendErrMsg "oops".toList = "Failed to parse error response".toList ∧
    ¬ ("oops".toList <:+: geminiSendErrMsg "oops".toList) :=
  ⟨rfl, by decide, rfl, rfl, by decide⟩
